import Mathlib

/-!
Verification development for the Expense-Tracker repository
(package expense_tracker: models.py, store.py, utils.py).

Shallow embedding conventions:
* Python strings are modelled as lists of characters (PyStr), with the
  relevant string methods (strip, lower, len) defined on them.  The model
  is ASCII-focused: strip removes the ASCII whitespace characters and
  lower maps only the letters A-Z; Python handles further Unicode
  characters the same way on all inputs the claims mention.
* Python floats are modelled by PyFloat: nan, the two infinities, and
  exact rational values.  Comparisons follow IEEE semantics (nan is
  incomparable).  Addition of finite values is modelled exactly; every
  numeric value appearing in the claims (10.5, 3.0, 13.5, 5.0) is exactly
  representable in binary floating point and their sums do not round, so
  the model agrees with Python on them.
* Fallible Python code (raise / except) is modelled with Except / Option.
-/

/-- Python strings, modelled as lists of characters. -/
abbrev PyStr := List Char

/-- The ASCII whitespace characters removed by the Python str.strip method
(space, tab, newline, carriage return, vertical tab, form feed). -/
def isSpace (c : Char) : Bool :=
  c = ' ' || c = '\t' || c = '\n' || c = '\r' || c = '\x0b' || c = '\x0c'

/-- Python str.strip with no argument: drop leading and trailing whitespace. -/
def pyStrip (s : PyStr) : PyStr :=
  ((List.dropWhile isSpace s).reverse.dropWhile isSpace).reverse

/-- Lower-casing of a single character, as Python str.lower does on the
ASCII range (characters outside A-Z are unchanged). -/
def pyCharLower (c : Char) : Char :=
  match c with
  | 'A' => 'a' | 'B' => 'b' | 'C' => 'c' | 'D' => 'd' | 'E' => 'e'
  | 'F' => 'f' | 'G' => 'g' | 'H' => 'h' | 'I' => 'i' | 'J' => 'j'
  | 'K' => 'k' | 'L' => 'l' | 'M' => 'm' | 'N' => 'n' | 'O' => 'o'
  | 'P' => 'p' | 'Q' => 'q' | 'R' => 'r' | 'S' => 's' | 'T' => 't'
  | 'U' => 'u' | 'V' => 'v' | 'W' => 'w' | 'X' => 'x' | 'Y' => 'y'
  | 'Z' => 'z'
  | other => other

/-- Python str.lower. -/
def pyLower (s : PyStr) : PyStr := s.map pyCharLower

/-- ASCII decimal digit test ( the digit class of the CPython strptime
format regex on ASCII input ). -/
def isDigit (c : Char) : Bool := '0' ≤ c && c ≤ '9'

/-- Numeric value of a decimal digit character. -/
def digitVal (c : Char) : Nat := c.toNat - '0'.toNat

/-- Numeric value of a string of decimal digits (most significant first),
as Python int() computes it on digit strings. -/
def natOf (s : PyStr) : Nat := s.foldl (fun a c => 10 * a + digitVal c) 0

/-- Python int() applied to a matched strptime group: int() tolerates
surrounding whitespace, which matters for the space-padded day group
( int of a space followed by a digit is that digit ). -/
def intOf (s : PyStr) : Nat := natOf (s.dropWhile isSpace)

/-- The decimal digit character for a value below ten. -/
def digitChar (k : Nat) : Char :=
  match k with
  | 0 => '0' | 1 => '1' | 2 => '2' | 3 => '3' | 4 => '4'
  | 5 => '5' | 6 => '6' | 7 => '7' | 8 => '8' | 9 => '9'
  | _ => '?'

/-- Digit-accumulating loop for natDigits; the first argument is fuel
bounding the number of divisions, so the recursion is structural and the
definition evaluates inside the kernel. -/
def natDigitsAux : Nat → Nat → PyStr → PyStr
  | 0, _, acc => acc
  | fuel + 1, n, acc =>
    if n = 0 then acc
    else natDigitsAux fuel (n / 10) (digitChar (n % 10) :: acc)

/-- Decimal rendering of a natural number, most significant digit first. -/
def natDigits (n : Nat) : PyStr :=
  if n = 0 then ['0'] else natDigitsAux n n []

/-- Decimal rendering padded with leading zeros to width w, as the
Python %0wd format used by date.isoformat. -/
def padNat (w n : Nat) : PyStr :=
  List.replicate (w - (natDigits n).length) '0' ++ natDigits n

/-- Decimal rendering of an integer (str of a Python int). -/
def intStr (n : Int) : PyStr :=
  (if n < 0 then ['-'] else []) ++ natDigits n.natAbs

/-- Python float values: nan, the infinities, and finite values.  Finite
values are carried exactly as rationals; see the header comment. -/
inductive PyFloat where
  | nan
  | inf
  | ninf
  | val (q : ℚ)
deriving DecidableEq

/-- The Python <= comparison on floats (false whenever nan is involved). -/
def pyle : PyFloat → PyFloat → Bool
  | .nan, _ => false
  | _, .nan => false
  | .ninf, _ => true
  | _, .ninf => false
  | _, .inf => true
  | .inf, _ => false
  | .val a, .val b => decide (a ≤ b)

/-- The Python < comparison on floats (false whenever nan is involved). -/
def pylt : PyFloat → PyFloat → Bool
  | .nan, _ => false
  | _, .nan => false
  | .ninf, .ninf => false
  | .ninf, _ => true
  | _, .ninf => false
  | .inf, _ => false
  | _, .inf => true
  | .val a, .val b => decide (a < b)

/-- Python float addition; addition of finite values is modelled exactly. -/
def pyadd : PyFloat → PyFloat → PyFloat
  | .nan, _ => .nan
  | _, .nan => .nan
  | .inf, .ninf => .nan
  | .ninf, .inf => .nan
  | .inf, _ => .inf
  | _, .inf => .inf
  | .ninf, _ => .ninf
  | _, .ninf => .ninf
  | .val a, .val b => .val (a + b)

/-- A calendar date value; the Python datetime.date type only ever holds
year, month and day forming a real calendar date with 1 <= year <= 9999,
which the predicate dateOK below expresses. -/
structure Date where
  year : Nat
  month : Nat
  day : Nat
deriving DecidableEq

/-- Gregorian leap year rule, as datetime uses. -/
def isLeap (y : Nat) : Bool :=
  y % 4 = 0 && (y % 100 ≠ 0 || y % 400 = 0)

/-- Days in a month, as datetime uses. -/
def daysInMonth (y m : Nat) : Nat :=
  if m = 2 then (if isLeap y then 29 else 28)
  else if m = 4 || m = 6 || m = 9 || m = 11 then 30
  else 31

/-- The constraint the datetime.date constructor enforces
(MINYEAR = 1, MAXYEAR = 9999, valid month, valid day for that month). -/
def dateOK (y m d : Nat) : Bool :=
  1 ≤ y && y ≤ 9999 && 1 ≤ m && m ≤ 12 && 1 ≤ d && d ≤ daysInMonth y m

/-- Python date.isoformat: zero-padded YYYY-MM-DD. -/
def isoformat (dt : Date) : PyStr :=
  padNat 4 dt.year ++ '-' :: (padNat 2 dt.month ++ '-' :: padNat 2 dt.day)

/-- Split a string at every occurrence of a separator character
(used for the strptime hyphens, which no digit alternative of the format
regex can consume, and for the decimal point of float()). -/
def pySplit (sep : Char) (s : PyStr) : List PyStr :=
  match s with
  | [] => [[]]
  | c :: rest =>
    if c = sep then [] :: pySplit sep rest
    else
      match pySplit sep rest with
      | t :: ts => (c :: t) :: ts
      | [] => [[c]]

/-- Inverse of pySplit: rejoin the parts with the separator. -/
def pyJoin (sep : Char) : List PyStr → PyStr
  | [] => []
  | [p] => p
  | p :: ps => p ++ sep :: pyJoin sep ps

/-- The month component of the CPython strptime regex,
1[0-2] or 0[1-9] or [1-9] : one or two digits with value 1..12
( zero padding is NOT required by strptime ). -/
def mtokOk (t : PyStr) : Bool :=
  (t.length = 1 || t.length = 2) && t.all isDigit && 1 ≤ natOf t && natOf t ≤ 12

/-- The final alternative of the CPython strptime regex for the day,
a space followed by a nonzero digit ( space-padded days, as in ctime
output, are accepted by %d ). -/
def spaceDayTok : PyStr → Bool
  | [a, c] => a = ' ' && '1' ≤ c && c ≤ '9'
  | _ => false

/-- The day component of the CPython strptime regex,
3[01] or [12]d or 0[1-9] or [1-9] or space[1-9] : one or two digits with
value 1..31, or a space followed by a nonzero digit. -/
def dtokOk (t : PyStr) : Bool :=
  ((t.length = 1 || t.length = 2) && t.all isDigit && 1 ≤ natOf t && natOf t ≤ 31) ||
    spaceDayTok t

/-- The year component of the CPython strptime regex for %Y :
exactly four digits. -/
def ytokOk (t : PyStr) : Bool :=
  t.length = 4 && t.all isDigit

/-- utils.parse_date.  The source strips the input, returns None on the
empty string, and otherwise calls datetime.strptime(value, Y-m-d) and
takes .date(), returning None on ValueError.  CPython strptime compiles
the format to the regex
  (dddd)-(1[0-2]|0[1-9]|[1-9])-(3[01]|[12]d|0[1-9]|[1-9]| [1-9])
( note the final space-padded alternative of the day group ) and raises
unless the regex consumes the entire string; each matched group then goes
through int(), which tolerates the leading space, and strptime builds
datetime.date(y, m, d), which raises unless the values form a real
calendar date with year 1..9999.  No alternative of any group can
consume a hyphen, so the decomposition at the two hyphens is unique and
the whole is equivalent to splitting at hyphens and checking each token;
the empty input also falls out of this analysis (pySplit gives a single
part). -/
def parse_date (s : PyStr) : Option Date :=
  match pySplit '-' (pyStrip s) with
  | [ys, ms, ds] =>
    if ytokOk ys && mtokOk ms && dtokOk ds then
      if dateOK (intOf ys) (intOf ms) (intOf ds) then
        some ⟨intOf ys, intOf ms, intOf ds⟩
      else none
    else none
  | _ => none

/-- utils.validate_amount: raises ValueError when amount <= 0.
On floats the Python test  amount <= 0  is false for nan, so nan passes. -/
def validate_amount (amount : PyFloat) : Except String Unit :=
  if pyle amount (.val 0) then .error "Amount must be greater than 0."
  else .ok ()

/-- utils.validate_category: strips, then raises on the empty string or on
length above 30. -/
def validate_category (category : PyStr) : Except String Unit :=
  let c := pyStrip category
  if c = [] then .error "Category cannot be empty."
  else if 30 < c.length then .error "Category too long (max 30 characters)."
  else .ok ()

/-- utils.validate_description: strips, then raises on the empty string or
on length above 120. -/
def validate_description (description : PyStr) : Except String Unit :=
  let d := pyStrip description
  if d = [] then .error "Description cannot be empty."
  else if 120 < d.length then .error "Description too long (max 120 characters)."
  else .ok ()

/-- Negate a rational when the flag is set (sign handling of float()). -/
def ratSign (neg : Bool) (q : ℚ) : ℚ := if neg then -q else q

/-- Python float() applied to a string: strip, optional sign, then either
nan / inf / infinity (case-insensitive) or a decimal literal made of an
integer part and an optional fractional part, at least one digit in all.
Exponent forms and underscore separators are not modelled; no claim
involves them, and every branch any claim exercises is modelled exactly. -/
def pyFloatOfStr (s : PyStr) : Option PyFloat :=
  let t := pyStrip s
  let neg : Bool := match t with | '-' :: _ => true | _ => false
  let u : PyStr := match t with | '+' :: r => r | '-' :: r => r | r => r
  if pyLower u = ['n', 'a', 'n'] then some .nan
  else if pyLower u = ['i', 'n', 'f'] || pyLower u = ['i', 'n', 'f', 'i', 'n', 'i', 't', 'y'] then
    some (if neg then .ninf else .inf)
  else
    match pySplit '.' u with
    | [a] =>
      if !a.isEmpty && a.all isDigit then some (.val (ratSign neg (mkRat (natOf a) 1)))
      else none
    | [a, b] =>
      if (!a.isEmpty || !b.isEmpty) && a.all isDigit && b.all isDigit then
        some (.val (ratSign neg (mkRat (natOf a * 10 ^ b.length + natOf b) (10 ^ b.length))))
      else none
    | _ => none

/-- JSON values as json.loads produces them (objects become dicts,
arrays become lists, numbers become Python numbers; json.loads also
accepts the tokens NaN and Infinity, hence num carries a PyFloat). -/
inductive Json where
  | null
  | bool (b : Bool)
  | num (x : PyFloat)
  | str (s : PyStr)
  | arr (xs : List Json)
  | obj (fields : List (PyStr × Json))

/-- Decimal-style rendering of a rational.  Python str() of a float
prints a decimal form; the exact spelling is immaterial to every claim
(a numeric rendering never parses as a date, because it contains no
two interior hyphens, and the claims never constrain it otherwise). -/
def showRat (q : ℚ) : PyStr :=
  intStr q.num ++ (if q.den = 1 then [] else '/' :: natDigits q.den)

/-- str() of a Python float. -/
def showPyFloat : PyFloat → PyStr
  | .nan => ['n', 'a', 'n']
  | .inf => ['i', 'n', 'f']
  | .ninf => ['-', 'i', 'n', 'f']
  | .val q => showRat q

/-- str() applied to a loaded JSON value, as from_dict does to the date,
category and description fields.  Containers are rendered by a short
placeholder: their full recursive repr never matters to a claim (it only
feeds the date parser, which rejects it, or the length validators, which
no claim constrains on container-valued fields). -/
def pyStrOf : Json → PyStr
  | .null => ['N', 'o', 'n', 'e']
  | .bool true => ['T', 'r', 'u', 'e']
  | .bool false => ['F', 'a', 'l', 's', 'e']
  | .num x => showPyFloat x
  | .str s => s
  | .arr _ => ['[', ']']
  | .obj _ => ['d', 'i', 'c', 't']

/-- dict.get(key, default) on a loaded JSON object.  json.loads keeps the
last of duplicate keys, hence the reversed search. -/
def dictGet (fields : List (PyStr × Json)) (key : PyStr) (dflt : Json) : Json :=
  match fields.reverse.find? (fun kv => kv.1 = key) with
  | some kv => kv.2
  | none => dflt

/-- float() applied to a loaded JSON value: numbers pass through, bools
count as 0 and 1 (bool is an int subclass), strings are parsed, and
None / containers raise TypeError (modelled as none). -/
def pyFloatOf : Json → Option PyFloat
  | .num x => some x
  | .bool b => some (.val (if b then 1 else 0))
  | .str s => pyFloatOfStr s
  | _ => none

/-- models.Expense: frozen dataclass with four fields. -/
structure Expense where
  date : Date
  category : PyStr
  description : PyStr
  amount : PyFloat
deriving DecidableEq

instance {ε α : Type} [DecidableEq ε] [DecidableEq α] : DecidableEq (Except ε α) :=
  fun a b =>
    match a, b with
    | .ok x, .ok y =>
      if h : x = y then .isTrue (congrArg Except.ok h)
      else .isFalse (fun hc => h (Except.ok.inj hc))
    | .error x, .error y =>
      if h : x = y then .isTrue (congrArg Except.error h)
      else .isFalse (fun hc => h (Except.error.inj hc))
    | .ok _, .error _ => .isFalse (fun hc => Except.noConfusion hc)
    | .error _, .ok _ => .isFalse (fun hc => Except.noConfusion hc)

/-- models.Expense.from_dict: defensive construction from untrusted data.
Follows the source line by line: parse the stripped str() of the date
field (parse_date strips again; None means ValueError), strip the str()
of category and description, convert the amount with float() (TypeError
or ValueError becomes ValueError), then run validate_category,
validate_description, validate_amount in that order, and finally build
the instance.  Calling .get on a non-dict raises AttributeError; load()
catches every exception alike, so the error text matters to no claim. -/
def Expense.from_dict (data : Json) : Except String Expense :=
  match data with
  | .obj fields =>
    let dRaw := dictGet fields ("date".toList) (.str [])
    match parse_date (pyStrip (pyStrOf dRaw)) with
    | none => .error ("Invalid date in file: " ++ String.mk (pyStrOf dRaw))
    | some d =>
      let category := pyStrip (pyStrOf (dictGet fields ("category".toList) (.str [])))
      let description := pyStrip (pyStrOf (dictGet fields ("description".toList) (.str [])))
      match pyFloatOf (dictGet fields ("amount".toList) .null) with
      | none => .error ("Invalid amount in file: " ++ String.mk (pyStrOf (dictGet fields ("amount".toList) .null)))
      | some amount =>
        match validate_category category with
        | .error e => .error e
        | .ok _ =>
          match validate_description description with
          | .error e => .error e
          | .ok _ =>
            match validate_amount amount with
            | .error e => .error e
            | .ok _ => .ok ⟨d, category, description, amount⟩
  | _ => .error "AttributeError: get"

/-- models.Expense.to_dict: asdict plus the date rendered via isoformat,
keys in field declaration order. -/
def Expense.to_dict (e : Expense) : Json :=
  .obj [("date".toList, .str (isoformat e.date)),
        ("category".toList, .str e.category),
        ("description".toList, .str e.description),
        ("amount".toList, .num e.amount)]

/-- store.ExpenseStore state: the backing file path and the in-memory
list of expenses. -/
structure ExpenseStore where
  db_path : String
  expenses : List Expense

/-- The observable states of the backing file: missing, present but not
parseable as JSON, or present with a parsed JSON document. -/
inductive FileState where
  | absent
  | malformed (err : String)
  | parsed (j : Json)

/-- The wrapper prefix of the RuntimeError raised by load(). -/
def loadErrPrefix (st : ExpenseStore) : String :=
  "Failed to load database \x27" ++ st.db_path ++ "\x27: "

/-- The list comprehension [Expense.from_dict(item) for item in raw]:
elements left to right, the first exception aborts the whole. -/
def listFromDict : List Json → Except String (List Expense)
  | [] => .ok []
  | j :: rest =>
    match Expense.from_dict j with
    | .error e => .error e
    | .ok x =>
      match listFromDict rest with
      | .error e => .error e
      | .ok xs => .ok (x :: xs)

/-- store.ExpenseStore.load.  A missing file resets the list and returns.
Otherwise the file is parsed; a parse failure, a non-list top level, or
any element failing from_dict raises RuntimeError wrapping the cause.
The comprehension is fully evaluated before the assignment to
self.expenses, so on any exception the previous list is still in place:
the returned store reflects exactly that evaluation order. -/
def ExpenseStore.load (st : ExpenseStore) (f : FileState) : ExpenseStore × Except String Unit :=
  match f with
  | .absent => ({ st with expenses := [] }, .ok ())
  | .malformed e => (st, .error (loadErrPrefix st ++ e))
  | .parsed (.arr items) =>
    match listFromDict items with
    | .ok es => ({ st with expenses := es }, .ok ())
    | .error e => (st, .error (loadErrPrefix st ++ e))
  | .parsed _ => (st, .error (loadErrPrefix st ++ "DB file must contain a JSON list."))

/-- Whether the filesystem accepts the write issued by save()
(write_text can raise OSError: permissions, disk full). -/
inductive WriteOutcome where
  | success
  | failure (err : String)

/-- store.ExpenseStore.save: serialize every expense and overwrite the
whole backing file; a failing write leaves the file as it was. -/
def ExpenseStore.save (st : ExpenseStore) (w : WriteOutcome) (fs : FileState) :
    FileState × Except String Unit :=
  match w with
  | .success => (.parsed (.arr (st.expenses.map Expense.to_dict)), .ok ())
  | .failure e => (fs, .error e)

/-- store.ExpenseStore.add_expense: append to self.expenses, then call
save().  The append happens first and is never rolled back, so the
returned store holds the appended list even when the write fails. -/
def ExpenseStore.add_expense (st : ExpenseStore) (e : Expense) (w : WriteOutcome) (fs : FileState) :
    ExpenseStore × FileState × Except String Unit :=
  let st2 := { st with expenses := st.expenses ++ [e] }
  let r := st2.save w fs
  (st2, r.1, r.2)

/-- Sum of the amounts of the expenses kept by total_spending, starting
from the integer 0 as Python sum() does; with a category filter the kept
expenses are those whose lowered category equals the stripped and
lowered filter. -/
def totalOf (es : List Expense) (category : Option PyStr) : PyFloat :=
  match category with
  | none => es.foldl (fun acc e => pyadd acc e.amount) (.val 0)
  | some c =>
    let cat := pyLower (pyStrip c)
    (es.filter (fun e => pyLower e.category = cat)).foldl (fun acc e => pyadd acc e.amount) (.val 0)

/-- store.ExpenseStore.total_spending. -/
def ExpenseStore.total_spending (st : ExpenseStore) (category : Option PyStr) : PyFloat :=
  totalOf st.expenses category

/-- store.ExpenseStore.clear_all: empty the list, then save. -/
def ExpenseStore.clear_all (st : ExpenseStore) (w : WriteOutcome) (fs : FileState) :
    ExpenseStore × FileState × Except String Unit :=
  let st2 := { st with expenses := ([] : List Expense) }
  let r := st2.save w fs
  (st2, r.1, r.2)

/-!
Object-identity model for list_expenses (claim C9).  Python list objects
live on a heap and are passed by reference; list(self.expenses) allocates
a NEW list object holding the same elements and returns its reference,
so in-place mutation of the returned object is a heap write at a
reference distinct from the one the store holds.
-/

/-- A heap of list objects, indexed by references (allocation order). -/
structure Heap where
  cells : List (List Expense)

/-- Dereference a list object. -/
def Heap.read (h : Heap) (r : Nat) : List Expense := h.cells.getD r []

/-- Allocate a fresh list object; its reference is the next index. -/
def Heap.alloc (h : Heap) (v : List Expense) : Heap × Nat :=
  (⟨h.cells ++ [v]⟩, h.cells.length)

/-- In-place mutation of the list object at a reference
(append, item assignment, clear, and the like). -/
def Heap.write (h : Heap) (r : Nat) (v : List Expense) : Heap :=
  ⟨h.cells.set r v⟩

/-- A store whose self.expenses field is a reference to a heap cell. -/
structure StoreRef where
  ref : Nat

/-- store.ExpenseStore.list_expenses under the heap model:
return list(self.expenses), a freshly allocated copy. -/
def list_expensesAlloc (st : StoreRef) (h : Heap) : Heap × Nat :=
  h.alloc (h.read st.ref)

/-- store.ExpenseStore.total_spending under the heap model. -/
def total_spendingAt (st : StoreRef) (h : Heap) (c : Option PyStr) : PyFloat :=
  totalOf (h.read st.ref) c

/-- The set of strings the implemented parse_date accepts, stated
independently of the implementation: after stripping, the string is a
four-digit year, a hyphen, a one-or-two-digit month, a hyphen and a day
that is either one or two digits or a space followed by a nonzero digit,
whose values form a real calendar date (year at least 1; month and day
need NOT be zero-padded, and the day may be space-padded). -/
def AcceptedFormat (s : PyStr) (dt : Date) : Prop :=
  ∃ ys ms ds : PyStr,
    pyStrip s = ys ++ '-' :: (ms ++ '-' :: ds) ∧
    ys.length = 4 ∧ (∀ c ∈ ys, isDigit c = true) ∧
    (ms.length = 1 ∨ ms.length = 2) ∧ (∀ c ∈ ms, isDigit c = true) ∧
    (((ds.length = 1 ∨ ds.length = 2) ∧ (∀ c ∈ ds, isDigit c = true)) ∨
      (∃ c, ds = [' ', c] ∧ '1' ≤ c ∧ c ≤ '9')) ∧
    dt = ⟨intOf ys, intOf ms, intOf ds⟩ ∧
    dateOK (intOf ys) (intOf ms) (intOf ds) = true

/-- The acceptance set claimed for parse_date: after trimming, exactly
the zero-padded YYYY-MM-DD rendering of a real calendar date. -/
def ZeroPaddedFormat (s : PyStr) (dt : Date) : Prop :=
  pyStrip s = padNat 4 dt.year ++ '-' :: (padNat 2 dt.month ++ '-' :: padNat 2 dt.day) ∧
  dateOK dt.year dt.month dt.day = true

/-- An example expense (2025-12-16, food, burger, 10.5), as in the tests. -/
def exExpense : Expense :=
  ⟨⟨2025, 12, 16⟩, "food".toList, "burger".toList, .val (mkRat 21 2)⟩

/-- A second example expense (2025-12-16, travel, bus, 3.0). -/
def exExpense2 : Expense :=
  ⟨⟨2025, 12, 16⟩, "travel".toList, "bus".toList, .val (mkRat 3 1)⟩

/-- A store holding the two example expenses (amounts 10.5 and 3.0). -/
def exampleStore : ExpenseStore :=
  ⟨"expenses.json", [exExpense, exExpense2]⟩

/-! ### Lemmas about the string primitives -/

theorem dropWhile_eq_self_of_all {p : Char → Bool} {l : PyStr}
    (h : ∀ c ∈ l, p c = false) : l.dropWhile p = l := by
  cases l with
  | nil => rfl
  | cons c rest =>
    have hc : p c = false := h c (List.mem_cons_self c rest)
    simp [List.dropWhile_cons, hc]

theorem pyStrip_eq_self_of_noSpace {s : PyStr}
    (h : ∀ c ∈ s, isSpace c = false) : pyStrip s = s := by
  unfold pyStrip
  rw [dropWhile_eq_self_of_all h]
  rw [dropWhile_eq_self_of_all (fun c hc => h c (List.mem_reverse.mp hc))]
  exact List.reverse_reverse s

theorem isSpace_eq_false_of_isDigit {c : Char} (h : isDigit c = true) :
    isSpace c = false := by
  cases hs : isSpace c with
  | false => rfl
  | true =>
    exfalso
    simp only [isSpace, Bool.or_eq_true, decide_eq_true_eq] at hs
    rcases hs with ((((h1 | h1) | h1) | h1) | h1) | h1 <;> subst h1 <;> simp [isDigit] at h

theorem ne_dash_of_isDigit {c : Char} (h : isDigit c = true) : c ≠ '-' := by
  intro he
  subst he
  simp [isDigit] at h

/-! ### Lemmas about decimal digit strings -/

theorem digitVal_digitChar {k : Nat} (h : k < 10) : digitVal (digitChar k) = k := by
  interval_cases k <;> rfl

theorem isDigit_digitChar {k : Nat} (h : k < 10) : isDigit (digitChar k) = true := by
  interval_cases k <;> rfl

theorem natDigitsAux_eq (fuel n : Nat) (acc : PyStr) (h : n ≤ fuel) :
    natDigitsAux fuel n acc = ((Nat.digits 10 n).map digitChar).reverse ++ acc := by
  induction fuel generalizing n acc with
  | zero =>
    have : n = 0 := Nat.le_zero.mp h
    subst this
    simp [natDigitsAux]
  | succ fuel ih =>
    by_cases hn : n = 0
    · subst hn
      simp [natDigitsAux]
    · have hdiv : n / 10 ≤ fuel := by
        have h1 : n / 10 < n := Nat.div_lt_self (Nat.pos_of_ne_zero hn) (by norm_num)
        omega
      rw [natDigitsAux, if_neg hn, ih _ _ hdiv]
      rw [Nat.digits_def' (by norm_num : 1 < 10) (Nat.pos_of_ne_zero hn)]
      simp

theorem natDigits_eq (n : Nat) :
    natDigits n = if n = 0 then ['0'] else ((Nat.digits 10 n).map digitChar).reverse := by
  unfold natDigits
  by_cases hn : n = 0
  · simp [hn]
  · rw [if_neg hn, if_neg hn, natDigitsAux_eq n n [] (Nat.le_refl n)]
    simp

theorem natOf_append_last (s : PyStr) (c : Char) :
    natOf (s ++ [c]) = 10 * natOf s + digitVal c := by
  unfold natOf
  rw [List.foldl_append]
  rfl

theorem natOf_revMap_eq_ofDigits (L : List Nat) (h : ∀ d ∈ L, d < 10) :
    natOf ((L.map digitChar).reverse) = Nat.ofDigits 10 L := by
  induction L with
  | nil => rfl
  | cons d L ih =>
    have hd : d < 10 := h d (List.mem_cons_self d L)
    have hL : ∀ x ∈ L, x < 10 := fun x hx => h x (List.mem_cons_of_mem d hx)
    rw [List.map_cons, List.reverse_cons, natOf_append_last, ih hL,
      digitVal_digitChar hd, Nat.ofDigits_cons]
    ring

theorem natOf_natDigits (n : Nat) : natOf (natDigits n) = n := by
  rw [natDigits_eq]
  by_cases hn : n = 0
  · subst hn; rfl
  · rw [if_neg hn, natOf_revMap_eq_ofDigits _ (fun d hd => Nat.digits_lt_base (by norm_num) hd)]
    exact Nat.ofDigits_digits 10 n

theorem natDigits_all_digit (n : Nat) : ∀ c ∈ natDigits n, isDigit c = true := by
  rw [natDigits_eq]
  by_cases hn : n = 0
  · subst hn; intro c hc; simp at hc; subst hc; rfl
  · rw [if_neg hn]
    intro c hc
    rw [List.mem_reverse, List.mem_map] at hc
    obtain ⟨d, hd, hdc⟩ := hc
    subst hdc
    exact isDigit_digitChar (Nat.digits_lt_base (by norm_num) hd)

theorem natDigits_length_le {w n : Nat} (hw : 0 < w) (h : n < 10 ^ w) :
    (natDigits n).length ≤ w := by
  rw [natDigits_eq]
  by_cases hn : n = 0
  · simp [hn]; omega
  · rw [if_neg hn]
    simp only [List.length_reverse, List.length_map]
    rw [Nat.digits_len 10 n (by norm_num) hn]
    have := (Nat.lt_pow_iff_log_lt (by norm_num : 1 < 10) hn).mp h
    omega

theorem natOf_replicate_zero_append (k : Nat) (s : PyStr) :
    natOf (List.replicate k '0' ++ s) = natOf s := by
  induction k with
  | zero => rfl
  | succ k ih =>
    rw [List.replicate_succ, List.cons_append]
    show natOf (List.replicate k '0' ++ s) = natOf s
    exact ih

theorem padNat_length {w n : Nat} (h : (natDigits n).length ≤ w) :
    (padNat w n).length = w := by
  unfold padNat
  simp only [List.length_append, List.length_replicate]
  omega

theorem natOf_padNat (w n : Nat) : natOf (padNat w n) = n := by
  unfold padNat
  rw [natOf_replicate_zero_append, natOf_natDigits]

theorem padNat_all_digit (w n : Nat) : ∀ c ∈ padNat w n, isDigit c = true := by
  intro c hc
  unfold padNat at hc
  rw [List.mem_append] at hc
  rcases hc with hc | hc
  · rw [List.eq_of_mem_replicate hc]; rfl
  · exact natDigits_all_digit n c hc

/-! ### Lemmas about pySplit -/

theorem pySplit_ne_nil (sep : Char) (s : PyStr) : pySplit sep s ≠ [] := by
  cases s with
  | nil => simp [pySplit]
  | cons c rest =>
    unfold pySplit
    by_cases hc : c = sep
    · simp [hc]
    · rw [if_neg hc]
      cases pySplit sep rest <;> simp

theorem pyJoin_pySplit (sep : Char) (s : PyStr) : pyJoin sep (pySplit sep s) = s := by
  induction s with
  | nil => rfl
  | cons c rest ih =>
    unfold pySplit
    by_cases hc : c = sep
    · subst hc
      rw [if_pos rfl]
      cases h : pySplit c rest with
      | nil => exact absurd h (pySplit_ne_nil c rest)
      | cons t ts =>
        have hj : pyJoin c (pySplit c rest) = rest := ih
        rw [h] at hj
        show [] ++ c :: pyJoin c (t :: ts) = c :: rest
        rw [hj]
        rfl
    · rw [if_neg hc]
      cases h : pySplit sep rest with
      | nil => exact absurd h (pySplit_ne_nil sep rest)
      | cons t ts =>
        cases ts with
        | nil =>
          show c :: t = c :: rest
          have : pyJoin sep (pySplit sep rest) = rest := ih
          rw [h] at this
          simpa using this
        | cons t2 ts2 =>
          show (c :: t) ++ sep :: pyJoin sep (t2 :: ts2) = c :: rest
          have : pyJoin sep (pySplit sep rest) = rest := ih
          rw [h] at this
          have h2 : t ++ sep :: pyJoin sep (t2 :: ts2) = rest := this
          rw [List.cons_append, h2]

theorem pySplit_append_sep {sep : Char} {A : PyStr} (R : PyStr) (h : sep ∉ A) :
    pySplit sep (A ++ sep :: R) = A :: pySplit sep R := by
  induction A with
  | nil => simp [pySplit]
  | cons c A ih =>
    have hc : c ≠ sep := fun he => h (he ▸ List.mem_cons_self c A)
    have hA : sep ∉ A := fun hm => h (List.mem_cons_of_mem c hm)
    rw [List.cons_append]
    conv_lhs => rw [pySplit]
    rw [if_neg hc, ih hA]

theorem pySplit_eq_single {sep : Char} {C : PyStr} (h : sep ∉ C) :
    pySplit sep C = [C] := by
  induction C with
  | nil => rfl
  | cons c C ih =>
    have hc : c ≠ sep := fun he => h (he ▸ List.mem_cons_self c C)
    have hC : sep ∉ C := fun hm => h (List.mem_cons_of_mem c hm)
    unfold pySplit
    rw [if_neg hc, ih hC]

/-! ### Characterization of parse_date -/

theorem daysInMonth_le_31 (y m : Nat) : daysInMonth y m ≤ 31 := by
  unfold daysInMonth
  split
  · split <;> omega
  · split <;> omega

theorem isDigit_of_one_to_nine {c : Char} (h1 : '1' ≤ c) (h2 : c ≤ '9') :
    isDigit c = true := by
  simp only [isDigit, Bool.and_eq_true, decide_eq_true_eq]
  exact ⟨le_trans (by decide) h1, h2⟩

theorem intOf_eq_natOf_of_digits {t : PyStr} (h : ∀ c ∈ t, isDigit c = true) :
    intOf t = natOf t := by
  unfold intOf
  rw [dropWhile_eq_self_of_all (fun c hc => isSpace_eq_false_of_isDigit (h c hc))]

theorem spaceDayTok_iff (t : PyStr) :
    spaceDayTok t = true ↔ ∃ c, t = [' ', c] ∧ '1' ≤ c ∧ c ≤ '9' := by
  cases t with
  | nil => simp [spaceDayTok]
  | cons a rest =>
    cases rest with
    | nil => simp [spaceDayTok]
    | cons b rest2 =>
      cases rest2 with
      | nil =>
        simp only [spaceDayTok, Bool.and_eq_true, decide_eq_true_eq]
        constructor
        · rintro ⟨⟨ha, h1⟩, h2⟩
          subst ha
          exact ⟨b, rfl, h1, h2⟩
        · rintro ⟨c, heq, h1, h2⟩
          simp only [List.cons.injEq, and_true] at heq
          obtain ⟨ha, hb⟩ := heq
          subst ha
          subst hb
          exact ⟨⟨rfl, h1⟩, h2⟩
      | cons d rest3 => simp [spaceDayTok]

theorem dtokOk_cases {t : PyStr} (h : dtokOk t = true) :
    ((t.length = 1 ∨ t.length = 2) ∧ (∀ c ∈ t, isDigit c = true)) ∨
      (∃ c, t = [' ', c] ∧ '1' ≤ c ∧ c ≤ '9') := by
  unfold dtokOk at h
  rw [Bool.or_eq_true] at h
  rcases h with h | h
  · left
    simp only [Bool.and_eq_true, Bool.or_eq_true, decide_eq_true_eq, List.all_eq_true] at h
    exact ⟨h.1.1.1, fun c hc => h.1.1.2 c hc⟩
  · right
    exact (spaceDayTok_iff t).mp h

theorem parse_date_some_iff (s : PyStr) (dt : Date) :
    parse_date s = some dt ↔ AcceptedFormat s dt := by
  constructor
  · intro h
    unfold parse_date at h
    cases hsp : pySplit '-' (pyStrip s) with
    | nil => rw [hsp] at h; exact absurd h (by simp)
    | cons ys ts =>
      cases ts with
      | nil => rw [hsp] at h; exact absurd h (by simp)
      | cons ms ts2 =>
        cases ts2 with
        | nil => rw [hsp] at h; exact absurd h (by simp)
        | cons ds ts3 =>
          cases ts3 with
          | cons t4 ts4 => rw [hsp] at h; exact absurd h (by simp)
          | nil =>
            rw [hsp] at h
            simp only at h
            by_cases htok : (ytokOk ys && mtokOk ms && dtokOk ds) = true
            · rw [if_pos htok] at h
              by_cases hok : dateOK (intOf ys) (intOf ms) (intOf ds) = true
              · rw [if_pos hok] at h
                refine ⟨ys, ms, ds, ?_, ?_, ?_, ?_, ?_, ?_,
                  (Option.some_inj.mp h).symm, hok⟩
                · have := pyJoin_pySplit '-' (pyStrip s)
                  rw [hsp] at this
                  exact this.symm
                · simp only [ytokOk, Bool.and_eq_true, decide_eq_true_eq] at htok
                  exact htok.1.1.1
                · simp only [ytokOk, Bool.and_eq_true, List.all_eq_true] at htok
                  exact fun c hc => htok.1.1.2 c hc
                · simp only [mtokOk, Bool.and_eq_true, Bool.or_eq_true, decide_eq_true_eq] at htok
                  exact htok.1.2.1.1.1
                · simp only [mtokOk, Bool.and_eq_true, List.all_eq_true] at htok
                  exact fun c hc => htok.1.2.1.1.2 c hc
                · simp only [Bool.and_eq_true] at htok
                  exact dtokOk_cases htok.2
              · rw [if_neg hok] at h
                exact absurd h (by simp)
            · rw [if_neg htok] at h
              exact absurd h (by simp)
  · rintro ⟨ys, ms, ds, hdec, hy4, hyd, hml, hmd, hday, hdt, hok⟩
    have hyNo : '-' ∉ ys := fun hm2 => ne_dash_of_isDigit (hyd _ hm2) rfl
    have hmNo : '-' ∉ ms := fun hm2 => ne_dash_of_isDigit (hmd _ hm2) rfl
    have hdNo : '-' ∉ ds := by
      rcases hday with ⟨-, hdd⟩ | ⟨c, hds, hc1, hc2⟩
      · exact fun hm2 => ne_dash_of_isDigit (hdd _ hm2) rfl
      · rw [hds]
        intro hm2
        rcases List.mem_cons.mp hm2 with he | hm3
        · exact absurd he (by decide)
        · rw [List.mem_singleton] at hm3
          exact ne_dash_of_isDigit (isDigit_of_one_to_nine hc1 hc2) hm3.symm
    have hsp : pySplit '-' (pyStrip s) = [ys, ms, ds] := by
      rw [hdec, pySplit_append_sep _ hyNo, pySplit_append_sep _ hmNo, pySplit_eq_single hdNo]
    unfold parse_date
    rw [hsp]
    simp only
    have hokd := hok
    simp only [dateOK, Bool.and_eq_true, decide_eq_true_eq] at hokd
    obtain ⟨⟨⟨⟨⟨hy1, hy2⟩, hm1⟩, hm2⟩, hd1⟩, hd2⟩ := hokd
    have hmEq : intOf ms = natOf ms := intOf_eq_natOf_of_digits hmd
    have htok : (ytokOk ys && mtokOk ms && dtokOk ds) = true := by
      have hyOk : ytokOk ys = true := by
        simp only [ytokOk, Bool.and_eq_true, decide_eq_true_eq, List.all_eq_true]
        exact ⟨hy4, fun c hc => hyd c hc⟩
      have hmOk : mtokOk ms = true := by
        simp only [mtokOk, Bool.and_eq_true, Bool.or_eq_true, decide_eq_true_eq,
          List.all_eq_true]
        rw [hmEq] at hm1 hm2
        exact ⟨⟨⟨hml, fun c hc => hmd c hc⟩, hm1⟩, hm2⟩
      have hdOk : dtokOk ds = true := by
        unfold dtokOk
        rw [Bool.or_eq_true]
        rcases hday with ⟨hdl, hdd⟩ | hsp2
        · left
          have hdEq : intOf ds = natOf ds := intOf_eq_natOf_of_digits hdd
          simp only [Bool.and_eq_true, Bool.or_eq_true, decide_eq_true_eq, List.all_eq_true]
          rw [hdEq] at hd1 hd2
          exact ⟨⟨⟨hdl, fun c hc => hdd c hc⟩, hd1⟩,
            le_trans hd2 (daysInMonth_le_31 (intOf ys) (intOf ms))⟩
        · right
          exact (spaceDayTok_iff ds).mpr hsp2
      rw [hyOk, hmOk, hdOk]
      rfl
    rw [if_pos htok, if_pos hok, hdt]

/-! ### isoformat and the round trip through parse_date -/

theorem isoformat_noSpace (dt : Date) : ∀ c ∈ isoformat dt, isSpace c = false := by
  intro c hc
  unfold isoformat at hc
  simp only [List.mem_append, List.mem_cons] at hc
  rcases hc with h1 | h2 | h3 | h4 | h5
  · exact isSpace_eq_false_of_isDigit (padNat_all_digit 4 dt.year c h1)
  · subst h2; rfl
  · exact isSpace_eq_false_of_isDigit (padNat_all_digit 2 dt.month c h3)
  · subst h4; rfl
  · exact isSpace_eq_false_of_isDigit (padNat_all_digit 2 dt.day c h5)

theorem parse_date_isoformat (dt : Date) (h : dateOK dt.year dt.month dt.day = true) :
    parse_date (isoformat dt) = some dt := by
  have hb := h
  simp only [dateOK, Bool.and_eq_true, decide_eq_true_eq] at hb
  obtain ⟨⟨⟨⟨⟨hy1, hy2⟩, hm1⟩, hm2⟩, hd1⟩, hd2⟩ := hb
  have hylen : (padNat 4 dt.year).length = 4 :=
    padNat_length (natDigits_length_le (by norm_num) (by omega))
  have hmlen : (padNat 2 dt.month).length = 2 :=
    padNat_length (natDigits_length_le (by norm_num) (by omega))
  have hdle : dt.day < 100 :=
    lt_of_le_of_lt hd2 (lt_of_le_of_lt (daysInMonth_le_31 dt.year dt.month) (by norm_num))
  have hdlen : (padNat 2 dt.day).length = 2 :=
    padNat_length (natDigits_length_le (by norm_num) (by omega))
  have hyEq : intOf (padNat 4 dt.year) = dt.year :=
    (intOf_eq_natOf_of_digits (padNat_all_digit 4 dt.year)).trans (natOf_padNat 4 dt.year)
  have hmEq : intOf (padNat 2 dt.month) = dt.month :=
    (intOf_eq_natOf_of_digits (padNat_all_digit 2 dt.month)).trans (natOf_padNat 2 dt.month)
  have hdEq : intOf (padNat 2 dt.day) = dt.day :=
    (intOf_eq_natOf_of_digits (padNat_all_digit 2 dt.day)).trans (natOf_padNat 2 dt.day)
  refine (parse_date_some_iff _ _).mpr
    ⟨padNat 4 dt.year, padNat 2 dt.month, padNat 2 dt.day, ?_, hylen,
      padNat_all_digit 4 dt.year, Or.inr hmlen, padNat_all_digit 2 dt.month,
      Or.inl ⟨Or.inr hdlen, padNat_all_digit 2 dt.day⟩, ?_, ?_⟩
  · rw [pyStrip_eq_self_of_noSpace (isoformat_noSpace dt)]
    rfl
  · rw [hyEq, hmEq, hdEq]
  · rw [hyEq, hmEq, hdEq]
    exact h

/-! ### Lemmas about strip and lower commuting (case-insensitive filter) -/

theorem pyCharLower_isSpace (c : Char) : isSpace (pyCharLower c) = isSpace c := by
  unfold pyCharLower
  split <;> rfl

theorem dropWhile_map_pyCharLower (s : PyStr) :
    List.dropWhile isSpace (s.map pyCharLower) = (List.dropWhile isSpace s).map pyCharLower := by
  induction s with
  | nil => rfl
  | cons c rest ih =>
    simp only [List.map_cons, List.dropWhile_cons, pyCharLower_isSpace]
    by_cases hc : isSpace c
    · simp only [hc, if_true, ih]
    · simp only [Bool.not_eq_true] at hc
      simp only [hc, Bool.false_eq_true, if_false, List.map_cons]

theorem pyStrip_pyLower (s : PyStr) : pyStrip (pyLower s) = pyLower (pyStrip s) := by
  unfold pyStrip pyLower
  rw [dropWhile_map_pyCharLower, ← List.map_reverse, dropWhile_map_pyCharLower,
    ← List.map_reverse]

/-! ### Small PyFloat lemmas -/

theorem pyle_zero_false_of_pylt_zero {a : PyFloat} (h : pylt (.val 0) a = true) :
    pyle a (.val 0) = false := by
  cases a with
  | nan => simp [pylt] at h
  | inf => rfl
  | ninf => simp [pylt] at h
  | val q =>
    simp only [pylt, decide_eq_true_eq] at h
    simp only [pyle, decide_eq_false_iff_not]
    exact not_le.mpr h

/-! ### Characterizations of the validators -/

theorem validate_amount_ok_iff (a : PyFloat) :
    validate_amount a = .ok () ↔ pyle a (.val 0) = false := by
  unfold validate_amount
  by_cases h : pyle a (.val 0) <;> simp [h]

theorem validate_category_ok_iff (s : PyStr) :
    validate_category s = .ok () ↔ ¬(pyStrip s = [] ∨ 30 < (pyStrip s).length) := by
  unfold validate_category
  by_cases h1 : pyStrip s = []
  · simp [h1]
  · by_cases h2 : 30 < (pyStrip s).length
    · simp [h1, h2]
    · simp [h1, h2]

theorem validate_description_ok_iff (s : PyStr) :
    validate_description s = .ok () ↔ ¬(pyStrip s = [] ∨ 120 < (pyStrip s).length) := by
  unfold validate_description
  by_cases h1 : pyStrip s = []
  · simp [h1]
  · by_cases h2 : 120 < (pyStrip s).length
    · simp [h1, h2]
    · simp [h1, h2]

/-! ### dict.get on the serialized form -/

theorem dictGet_toDict_date (v1 v2 v3 v4 dflt : Json) :
    dictGet [("date".toList, v1), ("category".toList, v2),
             ("description".toList, v3), ("amount".toList, v4)] ("date".toList) dflt = v1 := rfl

theorem dictGet_toDict_category (v1 v2 v3 v4 dflt : Json) :
    dictGet [("date".toList, v1), ("category".toList, v2),
             ("description".toList, v3), ("amount".toList, v4)] ("category".toList) dflt = v2 := rfl

theorem dictGet_toDict_description (v1 v2 v3 v4 dflt : Json) :
    dictGet [("date".toList, v1), ("category".toList, v2),
             ("description".toList, v3), ("amount".toList, v4)] ("description".toList) dflt = v3 := rfl

theorem dictGet_toDict_amount (v1 v2 v3 v4 dflt : Json) :
    dictGet [("date".toList, v1), ("category".toList, v2),
             ("description".toList, v3), ("amount".toList, v4)] ("amount".toList) dflt = v4 := rfl

/-! ### Lemmas about listFromDict and load -/

theorem listFromDict_ok_iff (items : List Json) (es : List Expense) :
    listFromDict items = .ok es ↔
      List.Forall₂ (fun j e => Expense.from_dict j = .ok e) items es := by
  induction items generalizing es with
  | nil =>
    cases es with
    | nil => simp [listFromDict]
    | cons e es' => simp [listFromDict]
  | cons j rest ih =>
    constructor
    · intro h
      unfold listFromDict at h
      cases hfd : Expense.from_dict j with
      | error msg => rw [hfd] at h; exact absurd h (by simp)
      | ok x =>
        rw [hfd] at h
        cases hrest : listFromDict rest with
        | error msg => rw [hrest] at h; exact absurd h (by simp)
        | ok xs =>
          rw [hrest] at h
          simp only [Except.ok.injEq] at h
          subst h
          exact List.Forall₂.cons hfd ((ih xs).mp hrest)
    · intro h
      cases h with
      | cons h1 h2 =>
        rename_i e es'
        unfold listFromDict
        rw [h1, (ih es').mpr h2]

theorem listFromDict_error_of_mem {items : List Json} {j : Json} {msg : String}
    (hmem : j ∈ items) (hfd : Expense.from_dict j = .error msg) :
    ∃ e2, listFromDict items = .error e2 := by
  induction items with
  | nil => simp at hmem
  | cons k rest ih =>
    cases hk : Expense.from_dict k with
    | error e =>
      refine ⟨e, ?_⟩
      unfold listFromDict
      rw [hk]
    | ok x =>
      rcases List.mem_cons.mp hmem with he | hm
      · subst he
        rw [hk] at hfd
        exact absurd hfd (by simp)
      · obtain ⟨e2, he2⟩ := ih hm
        refine ⟨e2, ?_⟩
        unfold listFromDict
        rw [hk, he2]

/-! ### Lemmas about the heap model -/

theorem Heap.read_alloc_old {h : Heap} {r : Nat} (v : List Expense)
    (hr : r < h.cells.length) : (h.alloc v).1.read r = h.read r := by
  simp only [Heap.alloc, Heap.read, List.getD, List.get?_eq_getElem?]
  rw [List.getElem?_append, if_pos hr]

theorem Heap.read_alloc_fresh (h : Heap) (v : List Expense) :
    (h.alloc v).1.read (h.alloc v).2 = v := by
  simp only [Heap.alloc, Heap.read, List.getD, List.get?_eq_getElem?]
  rw [List.getElem?_append, if_neg (lt_irrefl _)]
  simp

theorem Heap.read_write_ne {h : Heap} {r r2 : Nat} (v : List Expense) (hne : r ≠ r2) :
    (h.write r v).read r2 = h.read r2 := by
  simp only [Heap.write, Heap.read, List.getD, List.get?_eq_getElem?]
  rw [List.getElem?_set_ne hne]

/-- Every date parse_date returns is a real calendar date. -/
theorem parse_date_dateOK {s : PyStr} {dt : Date} (h : parse_date s = some dt) :
    dateOK dt.year dt.month dt.day = true := by
  obtain ⟨ys, ms, ds, _, _, _, _, _, _, hdt, hok⟩ := (parse_date_some_iff s dt).mp h
  rw [hdt]
  exact hok

/-! ## Claim theorems -/

/-- C8: validate_category fails exactly on input that is empty after
trimming or whose trimmed length exceeds 30 characters, and succeeds on
all other strings; validate_description likewise with limit 120. -/
theorem C8_validator_domains (s : PyStr) :
    (validate_category s = .ok () ↔ ¬(pyStrip s = [] ∨ 30 < (pyStrip s).length)) ∧
    (validate_description s = .ok () ↔ ¬(pyStrip s = [] ∨ 120 < (pyStrip s).length)) :=
  ⟨validate_category_ok_iff s, validate_description_ok_iff s⟩

theorem C8_validator_domains_witness :
    validate_category ("food".toList) = .ok () ∧
    validate_description ("burger".toList) = .ok () :=
  ⟨(C8_validator_domains ("food".toList)).1.mpr (by decide),
   (C8_validator_domains ("burger".toList)).2.mpr (by decide)⟩

/-- C10: load is atomic on failure - whenever load returns an error, the
in-memory sequence of the store is exactly what it was before the call,
because the full list of entities is built before it is installed. -/
theorem C10_load_atomic (st : ExpenseStore) (f : FileState) (msg : String)
    (h : (st.load f).2 = .error msg) : (st.load f).1 = st := by
  cases f with
  | absent => simp [ExpenseStore.load] at h
  | malformed e => rfl
  | parsed j =>
    cases j with
    | arr items =>
      cases hl : listFromDict items with
      | ok es => simp [ExpenseStore.load, hl] at h
      | error e => simp [ExpenseStore.load, hl]
    | null => rfl
    | bool b => rfl
    | num x => rfl
    | str s2 => rfl
    | obj fields => rfl

theorem C10_load_atomic_witness :
    ((ExpenseStore.mk "expenses.json" [exExpense]).load (.parsed (.obj []))).1 =
      ExpenseStore.mk "expenses.json" [exExpense] :=
  C10_load_atomic _ _ _ rfl

/-- C7: add_expense appends the expense at the end of the in-memory
sequence, leaving all existing entries and their order unchanged, then
immediately saves the whole list; when the write fails the append has
already happened and is not rolled back. -/
theorem C7_add_appends_then_saves (st : ExpenseStore) (e : Expense) (w : WriteOutcome)
    (fs : FileState) :
    ((st.add_expense e w fs).1.expenses = st.expenses ++ [e]) ∧
    (w = .success →
      (st.add_expense e w fs).2.1 =
        .parsed (.arr ((st.expenses ++ [e]).map Expense.to_dict))) ∧
    (∀ msg, w = .failure msg →
      (st.add_expense e w fs).2.2 = .error msg ∧
      (st.add_expense e w fs).1.expenses = st.expenses ++ [e]) := by
  refine ⟨rfl, ?_, ?_⟩
  · intro hw
    subst hw
    rfl
  · intro msg hw
    subst hw
    exact ⟨rfl, rfl⟩

theorem C7_add_appends_then_saves_witness :
    ((ExpenseStore.mk "expenses.json" [exExpense]).add_expense exExpense2
        (.failure "disk full") .absent).2.2 = .error "disk full" ∧
    ((ExpenseStore.mk "expenses.json" [exExpense]).add_expense exExpense2
        (.failure "disk full") .absent).1.expenses = [exExpense] ++ [exExpense2] :=
  (C7_add_appends_then_saves _ _ _ _).2.2 "disk full" rfl

/-- C2: load on a missing backing file resets the in-memory sequence to
empty and succeeds; if the file exists but is unparseable, its top level
is not a list, or any element fails entity construction, load fails with
the wrapping error naming the file and the underlying cause; on full
success the in-memory sequence is exactly the constructed entities in
file order (no partial load, no skipped rows). -/
theorem C2_load_behaviour (st : ExpenseStore) :
    (st.load .absent = ({ st with expenses := [] }, .ok ())) ∧
    (∀ msg, (st.load (.malformed msg)).2 = .error (loadErrPrefix st ++ msg)) ∧
    (∀ j, (∀ xs, j ≠ .arr xs) →
      ∃ c, (st.load (.parsed j)).2 = .error (loadErrPrefix st ++ c)) ∧
    (∀ items j msg, j ∈ items → Expense.from_dict j = .error msg →
      ∃ c, (st.load (.parsed (.arr items))).2 = .error (loadErrPrefix st ++ c)) ∧
    (∀ items, (st.load (.parsed (.arr items))).2 = .ok () →
      List.Forall₂ (fun j e => Expense.from_dict j = .ok e) items
        (st.load (.parsed (.arr items))).1.expenses) := by
  refine ⟨rfl, fun msg => rfl, ?_, ?_, ?_⟩
  · intro j hj
    cases j with
    | arr xs => exact absurd rfl (hj xs)
    | null => exact ⟨"DB file must contain a JSON list.", rfl⟩
    | bool b => exact ⟨"DB file must contain a JSON list.", rfl⟩
    | num x => exact ⟨"DB file must contain a JSON list.", rfl⟩
    | str s2 => exact ⟨"DB file must contain a JSON list.", rfl⟩
    | obj fields => exact ⟨"DB file must contain a JSON list.", rfl⟩
  · intro items j msg hmem hfd
    obtain ⟨e2, he2⟩ := listFromDict_error_of_mem hmem hfd
    exact ⟨e2, by simp [ExpenseStore.load, he2]⟩
  · intro items h
    cases hl : listFromDict items with
    | error e => simp [ExpenseStore.load, hl] at h
    | ok es =>
      simp only [ExpenseStore.load, hl]
      exact (listFromDict_ok_iff items es).mp hl

theorem C2_load_behaviour_witness :
    ∃ c, ((ExpenseStore.mk "expenses.json" [exExpense]).load (.parsed (.obj []))).2 =
      .error (loadErrPrefix (ExpenseStore.mk "expenses.json" [exExpense]) ++ c) :=
  (C2_load_behaviour _).2.2.1 (.obj []) (fun _ h => Json.noConfusion h)

/-- C5: total_spending with no category returns the sum of all stored
amounts (0 for the empty store, 13.5 for the two example entries with
amounts 10.5 and 3.0); with a category it returns the sum over exactly
the expenses whose lowered category equals the trimmed and lowered
filter, and 0 when no expense matches. -/
theorem C5_total_spending (st : ExpenseStore) (c : PyStr) :
    (st.total_spending none = st.expenses.foldl (fun a e => pyadd a e.amount) (.val 0)) ∧
    (st.total_spending (some c) =
      (st.expenses.filter (fun e => pyLower e.category = pyLower (pyStrip c))).foldl
        (fun a e => pyadd a e.amount) (.val 0)) ∧
    ((ExpenseStore.mk "expenses.json" []).total_spending none = .val 0) ∧
    (exampleStore.total_spending none = .val (mkRat 27 2)) ∧
    ((∀ e ∈ st.expenses, pyLower e.category ≠ pyLower (pyStrip c)) →
      st.total_spending (some c) = .val 0) := by
  refine ⟨rfl, rfl, rfl, ?_, ?_⟩
  · show totalOf exampleStore.expenses none = .val (mkRat 27 2)
    simp only [exampleStore, exExpense, exExpense2, totalOf, List.foldl, pyadd,
      PyFloat.val.injEq]
    norm_num [Rat.mkRat_eq_div]
  · intro h
    have hfil : st.expenses.filter
        (fun e => decide (pyLower e.category = pyLower (pyStrip c))) = [] := by
      rw [List.filter_eq_nil_iff]
      intro a ha
      simpa using h a ha
    show st.total_spending (some c) = .val 0
    simp only [ExpenseStore.total_spending, totalOf]
    rw [hfil]
    rfl

theorem C5_total_spending_witness :
    exampleStore.total_spending (some ("office".toList)) = .val 0 :=
  (C5_total_spending exampleStore ("office".toList)).2.2.2.2 (by decide)

/-- C6: the category filter of total_spending is case-insensitive - for
any store and any two filter strings equal up to letter case, the totals
agree. -/
theorem C6_filter_case_insensitive (st : ExpenseStore) (c1 c2 : PyStr)
    (h : pyLower c1 = pyLower c2) :
    st.total_spending (some c1) = st.total_spending (some c2) := by
  have h2 : pyLower (pyStrip c1) = pyLower (pyStrip c2) := by
    rw [← pyStrip_pyLower, ← pyStrip_pyLower, h]
  simp only [ExpenseStore.total_spending, totalOf]
  rw [h2]

theorem C6_filter_case_insensitive_witness :
    exampleStore.total_spending (some ("FOOD".toList)) =
      exampleStore.total_spending (some ("food".toList)) :=
  C6_filter_case_insensitive exampleStore _ _ (by decide)

/-- C9: list_expenses returns the current expenses as an independent
snapshot - a freshly allocated list object with the same elements in
insertion order; mutating the returned object in place changes neither
the stored sequence nor the result of a later list_expenses or
total_spending call. -/
theorem C9_snapshot_independent (st : StoreRef) (h : Heap)
    (hv : st.ref < h.cells.length) :
    ((list_expensesAlloc st h).1.read (list_expensesAlloc st h).2 = h.read st.ref) ∧
    (∀ v : List Expense,
      (((list_expensesAlloc st h).1.write (list_expensesAlloc st h).2 v).read st.ref
          = h.read st.ref) ∧
      (∀ c, total_spendingAt st
            ((list_expensesAlloc st h).1.write (list_expensesAlloc st h).2 v) c
          = total_spendingAt st h c) ∧
      ((list_expensesAlloc st
            ((list_expensesAlloc st h).1.write (list_expensesAlloc st h).2 v)).1.read
          (list_expensesAlloc st
            ((list_expensesAlloc st h).1.write (list_expensesAlloc st h).2 v)).2
          = h.read st.ref)) := by
  have hfresh : (list_expensesAlloc st h).2 = h.cells.length := rfl
  have hne : (list_expensesAlloc st h).2 ≠ st.ref := by
    rw [hfresh]
    omega
  have hreadw : ∀ v : List Expense,
      ((list_expensesAlloc st h).1.write (list_expensesAlloc st h).2 v).read st.ref
        = h.read st.ref := by
    intro v
    rw [Heap.read_write_ne v hne]
    exact Heap.read_alloc_old _ hv
  have hpart1 : ∀ h2 : Heap,
      (list_expensesAlloc st h2).1.read (list_expensesAlloc st h2).2 = h2.read st.ref :=
    fun h2 => Heap.read_alloc_fresh h2 _
  refine ⟨hpart1 h, fun v => ⟨hreadw v, ?_, ?_⟩⟩
  · intro c
    unfold total_spendingAt
    rw [hreadw v]
  · exact (hpart1 _).trans (hreadw v)

theorem C9_snapshot_independent_witness :
    (list_expensesAlloc ⟨0⟩ ⟨[[exExpense]]⟩).1.read
        (list_expensesAlloc ⟨0⟩ ⟨[[exExpense]]⟩).2 =
      Heap.read ⟨[[exExpense]]⟩ 0 :=
  (C9_snapshot_independent ⟨0⟩ ⟨[[exExpense]]⟩ (by decide)).1

/-- C3 counterexample: parse_date accepts the non-zero-padded string
2025-1-5 (CPython strptime does not require zero padding for month and
day), although that string is not the zero-padded rendering of any real
calendar date - refuting the claim that every string outside the exact
zero-padded format is reported invalid. -/
theorem C3_counterexample :
    parse_date ("2025-1-5".toList) = some ⟨2025, 1, 5⟩ ∧
    ∀ dt : Date, ¬ ZeroPaddedFormat ("2025-1-5".toList) dt := by
  refine ⟨by decide, ?_⟩
  rintro dt ⟨h1, h2⟩
  have hlen : (pyStrip ("2025-1-5".toList)).length = 8 := by decide
  simp only [dateOK, Bool.and_eq_true, decide_eq_true_eq] at h2
  obtain ⟨⟨⟨⟨⟨hy1, hy2⟩, hm1⟩, hm2⟩, hd1⟩, hd2⟩ := h2
  have hylen : (padNat 4 dt.year).length = 4 :=
    padNat_length (natDigits_length_le (by norm_num) (by omega))
  have hmlen : (padNat 2 dt.month).length = 2 :=
    padNat_length (natDigits_length_le (by norm_num) (by omega))
  have hdlt : dt.day < 100 :=
    lt_of_le_of_lt hd2 (lt_of_le_of_lt (daysInMonth_le_31 _ _) (by norm_num))
  have hdlen : (padNat 2 dt.day).length = 2 :=
    padNat_length (natDigits_length_le (by norm_num) (by omega))
  have h10 : (padNat 4 dt.year ++ '-' :: (padNat 2 dt.month ++ '-' :: padNat 2 dt.day)).length
      = 10 := by
    simp [List.length_append, hylen, hmlen, hdlen]
  rw [h1] at hlen
  omega

/-- C3 amended: parse_date accepts exactly the strings that, after
trimming leading and trailing whitespace, consist of a four-digit year, a
hyphen, a one-or-two-digit month, a hyphen and a day that is either one
or two digits or a space followed by a nonzero digit, whose values denote
a real calendar date (zero padding of month and day is accepted but not
required, and the day may be space-padded as strptime %d allows); every
other string yields the invalid result, and parse_date is a total
function, never raising. -/
theorem C3_amended_parse_date (s : PyStr) (dt : Date) :
    parse_date s = some dt ↔ AcceptedFormat s dt :=
  parse_date_some_iff s dt

theorem C3_amended_parse_date_witness : AcceptedFormat ("2024-02-29".toList) ⟨2024, 2, 29⟩ :=
  (C3_amended_parse_date ("2024-02-29".toList) ⟨2024, 2, 29⟩).mp (by decide)

/-- C4 counterexample: from_dict applied to a row whose amount field is
the string nan succeeds - float converts it to nan and the guard
amount <= 0 is false for nan - constructing an Expense whose amount is
not strictly greater than zero, refuting the claimed invariant. -/
theorem C4_counterexample :
    Expense.from_dict (.obj [("date".toList, .str ("2025-01-01".toList)),
        ("category".toList, .str ("x".toList)),
        ("description".toList, .str ("y".toList)),
        ("amount".toList, .str ("nan".toList))])
      = .ok ⟨⟨2025, 1, 1⟩, "x".toList, "y".toList, .nan⟩ ∧
    pylt (.val 0) PyFloat.nan = false :=
  ⟨by decide, rfl⟩

/-- C4 amended: every Expense produced by the validating construction
path from_dict has a real calendar date, a category that is non-empty
and at most 30 characters after trimming, a description that is
non-empty and at most 120 characters after trimming, and an amount on
which the check amount <= 0 is false - strictly positive whenever the
amount is not nan; nan slips through the check, which is the single
deviation from the claim. -/
theorem C4_invariants (j : Json) (ex : Expense) (h : Expense.from_dict j = .ok ex) :
    dateOK ex.date.year ex.date.month ex.date.day = true ∧
    pyStrip ex.category ≠ [] ∧ (pyStrip ex.category).length ≤ 30 ∧
    pyStrip ex.description ≠ [] ∧ (pyStrip ex.description).length ≤ 120 ∧
    pyle ex.amount (.val 0) = false := by
  cases j with
  | null => simp [Expense.from_dict] at h
  | bool b => simp [Expense.from_dict] at h
  | num x => simp [Expense.from_dict] at h
  | str s2 => simp [Expense.from_dict] at h
  | arr xs => simp [Expense.from_dict] at h
  | obj fields =>
    simp only [Expense.from_dict] at h
    split at h
    · simp at h
    · rename_i d hpd
      split at h
      · simp at h
      · rename_i a hfl
        split at h
        · simp at h
        · rename_i u hvc
          cases u
          split at h
          · simp at h
          · rename_i u2 hvd
            cases u2
            split at h
            · simp at h
            · rename_i u3 hva
              cases u3
              simp only [Except.ok.injEq] at h
              subst h
              have hcat := (validate_category_ok_iff _).mp hvc
              have hdes := (validate_description_ok_iff _).mp hvd
              push_neg at hcat hdes
              exact ⟨parse_date_dateOK hpd, hcat.1, hcat.2, hdes.1, hdes.2,
                (validate_amount_ok_iff a).mp hva⟩

theorem C4_invariants_witness :
    dateOK 2025 12 16 = true ∧
    pyStrip ("food".toList) ≠ [] ∧ (pyStrip ("food".toList)).length ≤ 30 ∧
    pyStrip ("burger".toList) ≠ [] ∧ (pyStrip ("burger".toList)).length ≤ 120 ∧
    pyle (.val (mkRat 21 2)) (.val 0) = false :=
  C4_invariants (Expense.to_dict exExpense) exExpense (by decide)

/-- C1: for every Expense whose category and description are valid and
equal to their trimmed forms, and whose amount is strictly positive,
from_dict of to_dict is the identity on all four fields.  The dateOK
hypothesis mirrors the Python date type, which only ever holds a real
calendar date between the years 1 and 9999. -/
theorem C1_roundtrip (e : Expense)
    (hdate : dateOK e.date.year e.date.month e.date.day = true)
    (hcat : pyStrip e.category = e.category)
    (hcatv : validate_category e.category = .ok ())
    (hdesc : pyStrip e.description = e.description)
    (hdescv : validate_description e.description = .ok ())
    (hamt : pylt (.val 0) e.amount = true) :
    Expense.from_dict (Expense.to_dict e) = .ok e := by
  have hav : validate_amount e.amount = .ok () :=
    (validate_amount_ok_iff e.amount).mpr (pyle_zero_false_of_pylt_zero hamt)
  simp only [Expense.to_dict, Expense.from_dict, dictGet_toDict_date, dictGet_toDict_category,
    dictGet_toDict_description, dictGet_toDict_amount, pyStrOf, pyFloatOf]
  rw [pyStrip_eq_self_of_noSpace (isoformat_noSpace e.date), parse_date_isoformat e.date hdate,
    hcat, hdesc, hcatv, hdescv, hav]

theorem C1_roundtrip_witness :
    Expense.from_dict (Expense.to_dict exExpense) = .ok exExpense :=
  C1_roundtrip exExpense (by decide) (by decide) (by decide) (by decide) (by decide) (by decide)
